import Mathlib

/-!
Verification of the dwv voxel-buffer data model and traversal engine
(`src/image/iterator.js`, `src/image/image.js`).

Offsets and indices are embedded as `ℤ` (JavaScript numbers, exact on the
integer ranges the code manipulates); sample values as `ℚ`.  Each of the five
pull-based iterator closures of `iterator.js` becomes a structure holding the
captured parameters together with the mutable cursor fields, and a `next`
function returning `(value?, offsets passed to the accessor, new state)`; the
middle component instruments every call to the caller-supplied `dataAccessor`
so that out-of-bounds claims are expressible.
-/

namespace dwv

/-- Result triple of one pull: emitted value (none when `done:true`),
the list of offsets the accessor was called with during this pull,
and the successor state. -/
def Pull (α σ : Type) : Type := Option α × List ℤ × σ

/-- State of `dwv.image.simpleRange` (iterator.js:15): captured accessor,
exclusive `end`, `increment`, and the mutable `nextIndex` cursor. -/
structure SimpleRange where
  acc : ℤ → ℚ
  endV : ℤ
  increment : ℤ
  nextIndex : ℤ

/-- `dwv.image.simpleRange(dataAccessor, start, end, increment)`;
the JS default `increment = 1` is applied by callers that omit it. -/
def simpleRange (acc : ℤ → ℚ) (start endV increment : ℤ) : SimpleRange :=
  { acc := acc, endV := endV, increment := increment, nextIndex := start }

/-- One pull of the `simpleRange` iterator (iterator.js:22-35). -/
def SimpleRange.next (s : SimpleRange) : Pull ℚ SimpleRange :=
  if s.nextIndex < s.endV then
    (some (s.acc s.nextIndex), [s.nextIndex],
      { s with nextIndex := s.nextIndex + s.increment })
  else
    (none, [], s)

/-- State of `dwv.image.range` (iterator.js:54): parameters after the
reverse1/reverse2 initialisation, plus the `nextIndex` and `count` cursors. -/
structure RangeIter where
  acc : ℤ → ℚ
  start : ℤ
  endV : ℤ
  increment : ℤ
  countMax : ℤ
  finalCountIncrement : ℤ
  reverse1 : Bool
  nextIndex : ℤ
  count : ℤ

/-- `dwv.image.range(dataAccessor, start, end, increment, countMax,
countIncrement, reverse1, reverse2)` (iterator.js:54-92): adapts the first
index and the increments to the reverse flags, then precomputes
`finalCountIncrement = countIncrement - countMax * increment`. -/
def range (acc : ℤ → ℚ) (start endV increment countMax countIncrement : ℤ)
    (reverse1 reverse2 : Bool) : RangeIter :=
  let ci := if reverse1 then -countIncrement else countIncrement
  let ni := if reverse1 then
      (if reverse2 then endV - (countMax - 1) * increment else endV)
    else
      (if reverse2 then start + (countMax - 1) * increment else start)
  let inc := if reverse1 then
      (if reverse2 then increment else -increment)
    else
      (if reverse2 then -increment else increment)
  { acc := acc, start := start, endV := endV, increment := inc,
    countMax := countMax, finalCountIncrement := ci - countMax * inc,
    reverse1 := reverse1, nextIndex := ni, count := 0 }

/-- One pull of the `range` iterator (iterator.js:95-113).  The bound test is
`i <= end` in the forward direction and `i >= start` when `reverse1` is set
(iterator.js:84-91): the tested bound is inclusive. -/
def RangeIter.next (s : RangeIter) : Pull ℚ RangeIter :=
  let test := if s.reverse1 then s.start ≤ s.nextIndex else s.nextIndex ≤ s.endV
  if test then
    let ni := s.nextIndex + s.increment
    let c := s.count + 1
    if c = s.countMax then
      (some (s.acc s.nextIndex), [s.nextIndex],
        { s with nextIndex := ni + s.finalCountIncrement, count := 0 })
    else
      (some (s.acc s.nextIndex), [s.nextIndex],
        { s with nextIndex := ni, count := c })
  else
    (none, [], s)

/-- State of `dwv.image.rangeRegion` (iterator.js:129): exclusive `end`,
`increment`, region size and inter-region offset, plus the cursors. -/
structure RangeRegion where
  acc : ℤ → ℚ
  endV : ℤ
  increment : ℤ
  regionSize : ℤ
  regionOffset : ℤ
  nextIndex : ℤ
  regionElementCount : ℤ

/-- `dwv.image.rangeRegion(dataAccessor, start, end, increment, regionSize,
regionOffset)` (iterator.js:129-155). -/
def rangeRegion (acc : ℤ → ℚ) (start endV increment regionSize regionOffset : ℤ) :
    RangeRegion :=
  { acc := acc, endV := endV, increment := increment, regionSize := regionSize,
    regionOffset := regionOffset, nextIndex := start, regionElementCount := 0 }

/-- One pull of the `rangeRegion` iterator (iterator.js:135-153). -/
def RangeRegion.next (s : RangeRegion) : Pull ℚ RangeRegion :=
  if s.nextIndex < s.endV then
    let rec1 := s.regionElementCount + 1
    if rec1 = s.regionSize then
      (some (s.acc s.nextIndex), [s.nextIndex],
        { s with nextIndex := s.nextIndex + s.increment + s.regionOffset,
                 regionElementCount := 0 })
    else
      (some (s.acc s.nextIndex), [s.nextIndex],
        { s with nextIndex := s.nextIndex + s.increment,
                 regionElementCount := rec1 })
  else
    (none, [], s)

/-- State of `dwv.image.rangeRegions` (iterator.js:168): the ordered
`[off0, size, off1]` triples and the three cursors. -/
structure RangeRegions where
  acc : ℤ → ℚ
  endV : ℤ
  increment : ℤ
  regions : List (ℤ × ℤ × ℤ)
  nextIndex : ℤ
  regionCount : ℕ
  regionElementCount : ℤ

/-- `dwv.image.rangeRegions(dataAccessor, start, end, increment, regions)`
(iterator.js:168-201). -/
def rangeRegions (acc : ℤ → ℚ) (start endV increment : ℤ)
    (regions : List (ℤ × ℤ × ℤ)) : RangeRegions :=
  { acc := acc, endV := endV, increment := increment, regions := regions,
    nextIndex := start, regionCount := 0, regionElementCount := 0 }

/-- One pull of the `rangeRegions` iterator (iterator.js:175-199).  The source
reads `regions[regionCount][1]` unguarded; callers keep `regionCount` within
bounds while values remain to emit, and the embedding reads a zero triple past
the end where the source would fault. -/
def RangeRegions.next (s : RangeRegions) : Pull ℚ RangeRegions :=
  if s.nextIndex < s.endV then
    let rec1 := s.regionElementCount + 1
    let cur := s.regions.getD s.regionCount (0, 0, 0)
    if rec1 = cur.2.1 then
      let ni := s.nextIndex + s.increment + cur.2.2
      let rc := s.regionCount + 1
      let ni := if rc < s.regions.length then
          ni + (s.regions.getD rc (0, 0, 0)).1
        else ni
      (some (s.acc s.nextIndex), [s.nextIndex],
        { s with nextIndex := ni, regionCount := rc, regionElementCount := 0 })
    else
      (some (s.acc s.nextIndex), [s.nextIndex],
        { s with nextIndex := s.nextIndex + s.increment,
                 regionElementCount := rec1 })
  else
    (none, [], s)

/-- State of `dwv.image.range3d` (iterator.js:218): the three staggered
component cursors after the planar/interleaved initialisation. -/
structure Range3d where
  acc : ℤ → ℚ
  endV : ℤ
  increment : ℤ
  nextIndex : ℤ
  nextIndex1 : ℤ
  nextIndex2 : ℤ

/-- `dwv.image.range3d(dataAccessor, start, end, increment, isPlanar)`
(iterator.js:218-233).  The source computes `componentIncrement =
(end - start) / 3` with JS float division and documents that `end - start`
needs to be a multiple of 3; the embedding uses integer division, which
agrees on that documented domain. -/
def range3d (acc : ℤ → ℚ) (start endV increment : ℤ) (isPlanar : Bool) :
    Range3d :=
  let componentIncrement := if isPlanar then (endV - start) / 3 else 1
  let inc := if isPlanar then increment else increment * 3
  { acc := acc, endV := endV, increment := inc, nextIndex := start,
    nextIndex1 := start + componentIncrement,
    nextIndex2 := start + 2 * componentIncrement }

/-- One pull of the `range3d` iterator (iterator.js:237-256): emits the three
component values read at the staggered cursors. -/
def Range3d.next (s : Range3d) : Pull (ℚ × ℚ × ℚ) Range3d :=
  if s.nextIndex < s.endV then
    (some (s.acc s.nextIndex, s.acc s.nextIndex1, s.acc s.nextIndex2),
      [s.nextIndex, s.nextIndex1, s.nextIndex2],
      { s with nextIndex := s.nextIndex + s.increment,
               nextIndex1 := s.nextIndex1 + s.increment,
               nextIndex2 := s.nextIndex2 + s.increment })
  else
    (none, [], s)

/-- Repeatedly pulling: the state after `n` pulls. -/
def iterate {α σ : Type} (next : σ → Pull α σ) : ℕ → σ → σ
  | 0, s => s
  | n + 1, s => iterate next n (next s).2.2

/-- The values emitted by draining an iterator for at most `fuel` pulls,
mirroring `dwv.image.getIteratorValues` (iterator.js:266-274). -/
def drain {α σ : Type} (next : σ → Pull α σ) : ℕ → σ → List α
  | 0, _ => []
  | n + 1, s =>
    match next s with
    | (some v, _, s') => v :: drain next n s'
    | (none, _, _) => []

/-- The accessor-call offsets observed while draining for at most `fuel`
pulls. -/
def readsTrace {α σ : Type} (next : σ → Pull α σ) : ℕ → σ → List ℤ
  | 0, _ => []
  | n + 1, s =>
    match next s with
    | (some _, rs, s') => rs ++ readsTrace next n s'
    | (none, _, _) => []

/-- `Array.prototype.splice(n, 0, a)` as used by the source: insert `a` at
position `n`, clamping to the end of the list like JS `splice` does. -/
def spliceInsert {α : Type} (l : List α) (n : ℕ) (a : α) : List α :=
  l.take n ++ a :: l.drop n

/-- `TypedArray.prototype.set(src, off)` on a flat buffer: overwrite entries
starting at `off` with `src`.  Callers keep `off + src.length` within the
buffer (the source would raise a RangeError otherwise; the embedding clamps). -/
def listSet (buf : List ℚ) (off : ℕ) (src : List ℚ) : List ℚ :=
  buf.take off ++ src.take (buf.length - off) ++ buf.drop (off + src.length)

/-- Modelled from the spec: `dwv.image.Size` is not under src/.  Per-dimension
sizes in fixed order (columns, rows, slices, time, ...); `dimSize(k)` is the
product of the sizes of dimensions below `k` and `getTotalSize(from)` the
product of the sizes of dimensions at or above `from`. -/
structure Size where
  sizes : List ℕ

/-- `size.get(i)`. -/
def Size.get (s : Size) (i : ℕ) : ℕ := s.sizes.getD i 0

/-- `size.length()`: the number of dimensions. -/
def Size.length (s : Size) : ℕ := s.sizes.length

/-- `size.getDimSize(k)` = product of sizes of dimensions `< k`. -/
def Size.getDimSize (s : Size) (k : ℕ) : ℕ := (s.sizes.take k).prod

/-- `size.getTotalSize(from)` = product of sizes of dimensions `>= from`. -/
def Size.getTotalSize (s : Size) (from0 : ℕ) : ℕ := (s.sizes.drop from0).prod

/-- Row-major flat offset of an index against a stride scheme: Horner form of
`sum of index i times product of sizes below i`. -/
def offsetOf : List ℕ → List ℤ → ℤ
  | _, [] => 0
  | szs, v :: rest => v + (szs.headD 0 : ℤ) * offsetOf szs.tail rest

/-- Modelled from the spec: `size.indexToOffset(index, start)` — the flat
offset of `index` over the dimensions at or above `start` (`start = 2` gives
the secondary offset: a flat index over slice and above dimensions). -/
def Size.indexToOffsetFrom (s : Size) (idx : List ℤ) (start : ℕ) : ℤ :=
  offsetOf (s.sizes.drop start) (idx.drop start)

/-- Modelled from the spec: `size.offsetToIndex(offset)`, the inverse of
`indexToOffset` for in-bounds indices. -/
def Size.offsetToIndex (s : Size) (offset : ℕ) : List ℤ :=
  go s.sizes offset
where
  go : List ℕ → ℕ → List ℤ
    | [], _ => []
    | sz :: rest, off => ((off % sz : ℕ) : ℤ) :: go rest (off / sz)

/-- Modelled from the spec: the 3x3 direction-cosine matrix
(`dwv.math.Matrix33` is not under src/), as its flat entry list. -/
def Matrix33 : Type := List ℚ

/-- `orientation.equals(rhs, tol)`: componentwise comparison within the
tolerance. -/
def Matrix33.equals (a b : Matrix33) (tol : ℚ) : Bool :=
  (List.length a == List.length b) &&
    (List.zip a b).all (fun p => decide (|p.1 - p.2| < tol))

/-- Modelled from the spec: the Geometry collaborator (not under src/).
Origins are opaque identifiers; `getSliceIndexFn` is the consumed
`getSliceIndex(origin)` capability that places a new slice. -/
structure Geometry where
  size : Size
  orientation : Matrix33
  origins : List ℤ
  getSliceIndexFn : ℤ → ℕ

/-- `geometry.getOrigin()`: the first origin. -/
def Geometry.getOrigin (g : Geometry) : ℤ := g.origins.getD 0 0

/-- `geometry.indexToOffset(index)`. -/
def Geometry.indexToOffset (g : Geometry) (idx : List ℤ) : ℤ :=
  g.size.indexToOffsetFrom idx 0

/-- Modelled from the spec: `geometry.appendOrigin(origin, index)` inserts the
origin at the slice position and grows the slice dimension by one. -/
def Geometry.appendOrigin (g : Geometry) (origin : ℤ) (sliceIdx : ℕ) : Geometry :=
  { g with origins := spliceInsert g.origins sliceIdx origin,
           size := { sizes := g.size.sizes.set 2 (g.size.get 2 + 1) } }

/-- Modelled from the spec: the view orientation exposes, per view axis, the
dominant storage axis (`getColAbsMax(i).index`); only axes 0 and 2 are
consulted by the planner (`dwv.math.Matrix33` is not under src/). -/
structure ViewOrientation where
  colAbsMax0Index : ℕ
  colAbsMax2Index : ℕ

/-- Modelled from the spec: `dwv.image.RescaleSlopeAndIntercept` is not under
src/.  An immutable `(slope, intercept)` pair. -/
structure RescaleSlopeAndIntercept where
  slope : ℚ
  intercept : ℚ
deriving DecidableEq

/-- `rsi.apply(value) = value * slope + intercept`. -/
def RescaleSlopeAndIntercept.apply (r : RescaleSlopeAndIntercept) (v : ℚ) : ℚ :=
  v * r.slope + r.intercept

/-- `rsi.isID()`: slope 1 and intercept 0. -/
def RescaleSlopeAndIntercept.isID (r : RescaleSlopeAndIntercept) : Bool :=
  r.slope == 1 && r.intercept == 0

/-- `rsi.equals(rhs)`: both fields match. -/
def RescaleSlopeAndIntercept.equals (a b : RescaleSlopeAndIntercept) : Bool :=
  a.slope == b.slope && a.intercept == b.intercept

/-- Modelled from the spec: a window center/width pair (the window-level class
is not under src/). -/
structure WindowLevel where
  center : ℚ
  width : ℚ
deriving DecidableEq

/-- `wl.equals(rhs)`. -/
def WindowLevel.equals (a b : WindowLevel) : Bool :=
  a.center == b.center && a.width == b.width

/-- One window preset: its window-level list and the optional `perslice`
flag, as manipulated by `appendSlice` (image.js:512-546). -/
structure WindowPreset where
  wl : List WindowLevel
  perslice : Option Bool
deriving DecidableEq

/-- The image meta object: the two specially-treated keys (`numberOfFiles`,
`windowPresets`) plus the open mapping of remaining keys, whose values are
opaque and compared with strict equality. -/
structure Meta where
  numberOfFiles : Option ℕ
  windowPresets : Option (List (String × WindowPreset))
  other : List (String × ℤ)
deriving DecidableEq

/-- The `dwv.image.Image` private state (image.js:18-99), parametric in the
buffer representation: `List ℚ` for the value-level model and a heap
reference for the aliasing model of `clone`. -/
structure ImageT (β : Type) where
  geometry : Geometry
  buffer : β
  imageUids : List ℤ
  rsi : RescaleSlopeAndIntercept
  rsis : List RescaleSlopeAndIntercept
  isIdentityRSI : Bool
  isConstantRSI : Bool
  photometricInterpretation : String
  planarConfiguration : ℕ
  numberOfComponents : ℕ
  meta : Meta

/-- The value-level image: the buffer is held inline. -/
def Image : Type := ImageT (List ℚ)

/-- The constructor body (image.js:18-99): identity constant RSI, default
photometric interpretation and planar configuration, `numberOfComponents =
buffer.length / totalSize` (JS float division; integral for well-formed
buffers, embedded as natural division), empty meta.  `bufLen` is the length
of the buffer representation. -/
def ImageT.construct {β : Type} (geometry : Geometry) (buffer : β)
    (bufLen : ℕ) (imageUids : List ℤ) : ImageT β :=
  { geometry := geometry, buffer := buffer, imageUids := imageUids,
    rsi := ⟨1, 0⟩, rsis := [], isIdentityRSI := true, isConstantRSI := true,
    photometricInterpretation := "MONOCHROME2", planarConfiguration := 0,
    numberOfComponents := bufLen / geometry.size.getTotalSize 0,
    meta := ⟨none, none, []⟩ }

/-- `new dwv.image.Image(geometry, buffer, imageUids)` on the value model. -/
def Image.init (geometry : Geometry) (buffer : List ℚ) (imageUids : List ℤ) :
    Image :=
  ImageT.construct geometry buffer buffer.length imageUids

/-- `getSecondaryOffset(index)` (image.js:194-196). -/
def ImageT.getSecondaryOffset {β : Type} (img : ImageT β) (idx : List ℤ) : ℤ :=
  img.geometry.size.indexToOffsetFrom idx 2

/-- `getSecondaryOffsetMax()` (image.js:183-185). -/
def ImageT.getSecondaryOffsetMax {β : Type} (img : ImageT β) : ℕ :=
  img.geometry.size.getTotalSize 2

/-- `getRescaleSlopeAndIntercept(index)` (image.js:204-218).  Returns the
constant RSI, or for a non-constant image resolves through the per-offset
table (falling back to the stored `rsi` with a logged warning when the entry
is undefined); with no index in the non-constant state the source throws. -/
def ImageT.getRescaleSlopeAndIntercept {β : Type} (img : ImageT β)
    (index : Option (List ℤ)) : RescaleSlopeAndIntercept × Option String :=
  if !img.isConstantRSI then
    match index with
    | none => (img.rsi, some ("Cannot get non constant RSI with empty slice index."))
    | some idx =>
      let offset := img.getSecondaryOffset idx
      (img.rsis.getD offset.toNat img.rsi, none)
  else
    (img.rsi, none)

/-- `setRescaleSlopeAndIntercept(inRsi, offset)` (image.js:236-266).  Both
guards in the source read `typeof index === 'undefined'` where no variable
named `index` is in scope (the parameter is `offset`), so they are always
true: in non-constant mode the method always throws, and in constant mode a
differing RSI always replaces the stored constant — the `offset` argument
never reaches the branch that would switch to per-offset mode.  The embedding
keeps the resulting control flow; the identity flag is updated before the
guards, as in the source. -/
def ImageT.setRescaleSlopeAndIntercept {β : Type} (img : ImageT β)
    (inRsi : RescaleSlopeAndIntercept) (offset : Option ℕ) :
    ImageT β × Option String :=
  let _ := offset
  let img := { img with isIdentityRSI := img.isIdentityRSI && inRsi.isID }
  if !img.isConstantRSI then
    (img, some ("Cannot store non constant RSI with empty slice index."))
  else
    if !(img.rsi.equals inRsi) then
      ({ img with rsi := inRsi }, none)
    else
      (img, none)

/-- `getImageUid(index)` (image.js:115-121). -/
def ImageT.getImageUid {β : Type} (img : ImageT β) (index : Option (List ℤ)) : ℤ :=
  match index with
  | some idx =>
    if img.imageUids.length ≠ 1 then
      img.imageUids.getD (img.getSecondaryOffset idx).toNat 0
    else
      img.imageUids.getD 0 0
  | none => img.imageUids.getD 0 0

/-- `getValueAtOffset(offset)` (image.js:347-349): direct buffer read, no
bounds check in the source; an out-of-range read yields `undefined` there and
is embedded as 0. -/
def Image.getValueAtOffset (img : Image) (offset : ℕ) : ℚ :=
  img.buffer.getD offset 0

/-- `getValueAtOffset` over a JS-number offset, for iterator accessors. -/
def Image.getValueAtOffsetZ (img : Image) (o : ℤ) : ℚ :=
  if 0 ≤ o then img.getValueAtOffset o.toNat else 0

/-- `getRescaledValueAtOffset(offset)` (image.js:733-744): identity-skip, then
the constant RSI, else per-offset resolution through `offsetToIndex`. -/
def Image.getRescaledValueAtOffset (img : Image) (offset : ℕ) : ℚ :=
  let val := img.getValueAtOffset offset
  if img.isIdentityRSI then val
  else if img.isConstantRSI then
    ((img.getRescaleSlopeAndIntercept none).1).apply val
  else
    let index := img.geometry.size.offsetToIndex offset
    ((img.getRescaleSlopeAndIntercept (some index)).1).apply val

/-- `getRescaledValueAtOffset` over a JS-number offset. -/
def Image.getRescaledValueAtOffsetZ (img : Image) (o : ℤ) : ℚ :=
  if 0 ≤ o then img.getRescaledValueAtOffset o.toNat else 0

/-- `realloc(size)` (image.js:383-398): allocate a zero-filled buffer of the
new size (the typed-array element width and signedness do not affect the
value model) and copy the old contents to its start. -/
def Image.realloc (img : Image) (size : ℕ) : Image :=
  { img with buffer :=
      (img.buffer ++ List.replicate (size - img.buffer.length) 0).take size }

/-- Replace the value stored under an existing key of an association list. -/
def assocSet {α : Type} (l : List (String × α)) (k : String) (v : α) :
    List (String × α) :=
  l.map (fun kv => if kv.1 = k then (k, v) else kv)

/-- One step of the window-preset merge of `appendSlice`
(image.js:517-545): for one incoming preset key, promote the stored preset to
per-slice when the incoming window level differs, back-fill prior slices with
the original level, and insert the incoming level at the secondary offset;
store the preset wholesale when the key is new. -/
def updateOnePreset (numberOfImages secondaryOffset : ℕ)
    (wps : List (String × WindowPreset)) (pk : String × WindowPreset) :
    List (String × WindowPreset) :=
  match wps.lookup pk.1 with
  | none => wps ++ [pk]
  | some wp =>
    let wp :=
      if wp.perslice = none ∨ wp.perslice = some false then
        if !(WindowLevel.equals (wp.wl.getD 0 ⟨0, 0⟩) (pk.2.wl.getD 0 ⟨0, 0⟩)) then
          { wp with perslice := some true,
                    wl := wp.wl ++ List.replicate (numberOfImages - 1) (wp.wl.getD 0 ⟨0, 0⟩) }
        else wp
      else wp
    let wp :=
      if wp.perslice = some true then
        { wp with wl := spliceInsert wp.wl secondaryOffset (pk.2.wl.getD 0 ⟨0, 0⟩) }
      else wp
    assocSet wps pk.1 wp

/-- The first-frame slice shift of `appendSlice` (image.js:470-491): move the
existing content up by one slice when the new slice lands at or inside the
current range. -/
def appendShiftFirstFrame (img : Image)
    (newSliceIndex oldNumberOfSlices primaryOffset sliceSize : ℕ) : Image :=
  let start := primaryOffset
  if newSliceIndex = 0 then
    let endB := start + oldNumberOfSlices * sliceSize
    { img with buffer := (listSet img.buffer (primaryOffset + sliceSize)
        ((img.buffer.drop start).take (endB - start))) }
  else if newSliceIndex < oldNumberOfSlices then
    let endB := start + (oldNumberOfSlices - newSliceIndex) * sliceSize
    { img with buffer := (listSet img.buffer (primaryOffset + sliceSize)
        ((img.buffer.drop start).take (endB - start))) }
  else img

/-- The window-preset merge of `appendSlice` (image.js:512-546), applied when
the image carries presets; the source reads the keys of the incoming presets
unguarded (an rhs without presets would fault there, embedded as the empty
list). -/
def applyWindowPresets (img rhs : Image) (numberOfImages secondaryOffset : ℕ) :
    Image :=
  match img.meta.windowPresets with
  | none => img
  | some wps =>
    let rhsPresets := rhs.meta.windowPresets.getD []
    let wps2 := rhsPresets.foldl (updateOnePreset numberOfImages secondaryOffset) wps
    { img with meta := { img.meta with windowPresets := some wps2 } }

/-- The mutation sequence of `appendSlice` (image.js:446-547) once validation
has passed, over the precomputed buffer size, slice position and offsets:
conditional reallocation, first-frame shift, slice copy-in, geometry origin
append, RSI and UID insertion, and the window-preset merge.  A thrown error is
returned together with the state at the time of the throw. -/
def appendProcess (img rhs : Image)
    (timeId fullBufferSize newSliceIndex oldNumberOfSlices
      primaryOffset secondaryOffset sliceSize : ℕ) : Image × Option String :=
  -- create full buffer if not done yet (image.js:446-456)
  let img1 :=
    if img.buffer.length ≠ fullBufferSize then img.realloc fullBufferSize
    else img
  -- first frame: shift the existing slices to make room (image.js:470-491)
  let img2 :=
    if timeId = 0 then
      appendShiftFirstFrame img1 newSliceIndex oldNumberOfSlices primaryOffset sliceSize
    else img1
  -- add the new slice content (image.js:494)
  let img3 := { img2 with buffer := (listSet img2.buffer primaryOffset rhs.buffer) }
  -- update geometry (image.js:497-499)
  let img4 :=
    if timeId = 0 then
      { img3 with geometry :=
          (img3.geometry.appendOrigin rhs.geometry.getOrigin newSliceIndex) }
    else img3
  -- update rsi (image.js:502-503)
  let rsiPull := rhs.getRescaleSlopeAndIntercept none
  match rsiPull.2 with
  | some e => (img4, some e)
  | none =>
    let setPull := img4.setRescaleSlopeAndIntercept rsiPull.1 (some secondaryOffset)
    match setPull.2 with
    | some e => (setPull.1, some e)
    | none =>
      let img5 := setPull.1
      -- insert sop instance UIDs (image.js:506-509)
      let img6 := { img5 with imageUids :=
          (spliceInsert img5.imageUids secondaryOffset (rhs.getImageUid none)) }
      -- update window presets (image.js:512-546)
      (applyWindowPresets img6 rhs img5.imageUids.length secondaryOffset, none)

/-- `appendSlice(rhs, timeId)` (image.js:406-547).  All validation checks come
before any mutation; a thrown error is returned together with the state at the
time of the throw, so partial mutation before a late failure is observable.
The source's `rhs === null` check has no counterpart because the embedding's
`rhs` is always an image. -/
def Image.appendSlice (img : Image) (rhs : Image) (timeId : ℕ) :
    Image × Option String :=
  let rhsSize := rhs.geometry.size
  let size := img.geometry.size
  if rhsSize.get 2 ≠ 1 then
    (img, some ("Cannot append more than one slice"))
  else if size.get 0 ≠ rhsSize.get 0 then
    (img, some ("Cannot append a slice with different number of columns"))
  else if size.get 1 ≠ rhsSize.get 1 then
    (img, some ("Cannot append a slice with different number of rows"))
  else if !(Matrix33.equals img.geometry.orientation rhs.geometry.orientation
      (1 / 10000)) then
    (img, some ("Cannot append a slice with different orientation"))
  else if img.photometricInterpretation ≠ rhs.photometricInterpretation then
    (img, some ("Cannot append a slice with different photometric interpretation"))
  else
    match img.meta.other.find? (fun kv => rhs.meta.other.lookup kv.1 ≠ some kv.2) with
    | some kv =>
      (img, some ("Cannot append a slice with different " ++ kv.1))
    | none =>
      let sliceSize := img.numberOfComponents * size.getDimSize 2
      match img.meta.numberOfFiles with
      | none => (img, some ("Missing number of files for buffer manipulation."))
      | some nFiles =>
        let fullBufferSize0 := sliceSize * nFiles
        let fullBufferSize :=
          if size.length = 4 then fullBufferSize0 * size.get 3 else fullBufferSize0
        -- the source reads the captured `geometry` variable, which realloc
        -- does not touch, so the slice index is computed on the original
        let newSliceIndex := img.geometry.getSliceIndexFn rhs.geometry.getOrigin
        let values := (List.replicate size.length (0 : ℤ)).set 2 (newSliceIndex : ℤ)
        let values := if size.length = 4 then values.set 3 (timeId : ℤ) else values
        let primaryOffset :=
          (size.indexToOffsetFrom values 0).toNat * img.numberOfComponents
        let secondaryOffset :=
          (size.indexToOffsetFrom values 2).toNat * img.numberOfComponents
        appendProcess img rhs timeId fullBufferSize newSliceIndex (size.get 2)
          primaryOffset secondaryOffset sliceSize

/-- `calculateDataRange()` (image.js:752-773): raw min/max over the first
frame (all samples when the image has fewer than three dimensions). -/
def Image.calculateDataRange (img : Image) : ℚ × ℚ :=
  let size := img.geometry.size
  let leni := if 3 ≤ size.length then size.getDimSize 3 else size.getTotalSize 0
  let v0 := img.getValueAtOffset 0
  (List.range leni).foldl
    (fun mm i =>
      let v := img.getValueAtOffset i
      (if v < mm.1 then v else mm.1, if mm.2 < v then v else mm.2))
    (v0, v0)

/-- Accumulator of the histogram scan (image.js:824-846): raw and rescaled
running min/max and the bucket counts keyed by rescaled value. -/
structure HistogramAcc where
  rawMin : ℚ
  rawMax : ℚ
  rmin : ℚ
  rmax : ℚ
  histo : ℚ → ℕ

/-- One iteration of the histogram scan (image.js:830-846): update the raw
and rescaled running min/max for offset `i` and count its rescaled value. -/
def histoStep (img : Image) (a : HistogramAcc) (i : ℕ) : HistogramAcc :=
  let v := img.getValueAtOffset i
  let rv := img.getRescaledValueAtOffset i
  { rawMin := if v < a.rawMin then v else a.rawMin,
    rawMax := if a.rawMax < v then v else a.rawMax,
    rmin := if rv < a.rmin then rv else a.rmin,
    rmax := if a.rmax < rv then rv else a.rmax,
    histo := fun q => if q = rv then a.histo rv + 1 else a.histo q }

/-- `calculateHistogram()` (image.js:821-861): one pass over
`size.getTotalSize()` offsets tracking raw and rescaled ranges and bucketing
by rescaled value, then one `(bucket, count)` pair per unit step from the
rescaled min to the rescaled max. -/
def Image.calculateHistogram (img : Image) :
    (ℚ × ℚ) × (ℚ × ℚ) × List (ℚ × ℕ) :=
  let leni := img.geometry.size.getTotalSize 0
  let v0 := img.getValueAtOffset 0
  let rv0 := img.getRescaledValueAtOffset 0
  let a := (List.range leni).foldl (histoStep img) ⟨v0, v0, rv0, rv0, fun _ => 0⟩
  let nBuckets := (Rat.floor (a.rmax - a.rmin)).toNat + 1
  let histogram := (List.range nBuckets).map
    (fun (b : ℕ) => ((a.rmin + b : ℚ), a.histo (a.rmin + b)))
  ((a.rawMin, a.rawMax), (a.rmin, a.rmax), histogram)

/-- The iterator returned by the slice planner: one of the three primitive
shapes `getSliceIterator` can build. -/
inductive SliceIter where
  | simple (s : SimpleRange)
  | counted (s : RangeIter)
  | three (s : Range3d)

/-- `dwv.image.getSliceIterator(image, position, isRescaled, viewOrientation)`
(iterator.js:285-396): zero the position outside the through-plane axis,
then dispatch on the component count — single-component with an orientation
selects one of the six counted-range parameter sets, single-component without
an orientation walks one contiguous slice, and a 3-component image always
takes the `range3d` block walk (times 3), whatever the orientation. -/
def getSliceIterator (image : Image) (position : List ℤ) (isRescaled : Bool)
    (viewOrientation : Option ViewOrientation) : Except String SliceIter :=
  let geometry := image.geometry
  let dirMax2Index : ℕ :=
    match viewOrientation with
    | some vo => vo.colAbsMax2Index
    | none => 2
  let posStart := position.enum.map
    (fun p => if p.1 = dirMax2Index then p.2 else 0)
  let start := geometry.indexToOffset posStart
  let dataAccessor : ℤ → ℚ :=
    if isRescaled then fun o => image.getRescaledValueAtOffsetZ o
    else fun o => image.getValueAtOffsetZ o
  let size := geometry.size
  let ncols : ℤ := size.get 0
  let nrows : ℤ := size.get 1
  let nslices : ℤ := size.get 2
  let sliceSize : ℤ := size.getDimSize 2
  if image.numberOfComponents = 1 then
    match viewOrientation with
    | some vo =>
      let dirMax0 := vo.colAbsMax0Index
      let dirMax2 := vo.colAbsMax2Index
      if dirMax2 = 2 then
        -- axial: xyz or yxz
        let endO := start + sliceSize - 1
        if dirMax0 = 0 then
          .ok (.counted (range dataAccessor start endO 1 ncols ncols false false))
        else
          .ok (.counted (range dataAccessor start endO ncols nrows 1 true false))
      else if dirMax2 = 0 then
        -- sagittal: yzx or zyx
        let endO := start + (nslices - 1) * sliceSize + ncols * (nrows - 1)
        if dirMax0 = 1 then
          .ok (.counted (range dataAccessor start endO ncols nrows sliceSize true true))
        else
          .ok (.counted (range dataAccessor start endO sliceSize nslices ncols false true))
      else if dirMax2 = 1 then
        -- coronal: xzy or zxy
        let endO := start + (nslices - 1) * sliceSize + ncols - 1
        if dirMax0 = 0 then
          .ok (.counted (range dataAccessor start endO 1 ncols sliceSize true true))
        else
          .ok (.counted (range dataAccessor start endO sliceSize nslices 1 false true))
      else
        .error ("Unknown direction: " ++ toString dirMax2)
    | none =>
      .ok (.simple (simpleRange dataAccessor start (start + sliceSize) 1))
  else if image.numberOfComponents = 3 then
    let start := start * 3
    let sliceSize := sliceSize * 3
    let isPlanar := image.planarConfiguration = 1
    .ok (.three (range3d dataAccessor start (start + sliceSize) 1 isPlanar))
  else
    .error ("Unsupported number of components: " ++ toString image.numberOfComponents)

/-- Modelled from the spec: `position.getWithNew2D(x, y)` (`dwv.math.Index`
is not under src/): the position with its first two coordinates replaced. -/
def getWithNew2D (pos : List ℤ) (x y : ℤ) : List ℤ :=
  x :: y :: pos.drop 2

/-- `dwv.image.getRegionSliceIterator(image, position, isRescaled, min, max)`
(iterator.js:408-456): default the corners to `(0,0)` and
`(ncols - 1, nrows)`, clamp the max row inward by one, compute the flat
start/end offsets and the per-row skip `ncols - rangeNumberOfColumns` with a
minimum emitted row width of 1, and delegate to `rangeRegion`. -/
def getRegionSliceIterator (image : Image) (position : List ℤ)
    (isRescaled : Bool) (mino maxo : Option (ℤ × ℤ)) :
    Except String RangeRegion :=
  if image.numberOfComponents ≠ 1 then
    .error ("Unsupported number of components for region iterator: " ++
      toString image.numberOfComponents)
  else
    let dataAccessor : ℤ → ℚ :=
      if isRescaled then fun o => image.getRescaledValueAtOffsetZ o
      else fun o => image.getValueAtOffsetZ o
    let geometry := image.geometry
    let size := geometry.size
    let mn := mino.getD (0, 0)
    let mx := maxo.getD ((size.get 0 : ℤ) - 1, (size.get 1 : ℤ))
    let startOffset := geometry.indexToOffset (getWithNew2D position mn.1 mn.2)
    let endOffset := geometry.indexToOffset (getWithNew2D position mx.1 (mx.2 - 1))
    let rangeNumberOfColumns := max 1 (mx.1 - mn.1)
    let rowIncrement := (size.get 0 : ℤ) - rangeNumberOfColumns
    .ok (rangeRegion dataAccessor startOffset (endOffset + 1) 1
      rangeNumberOfColumns rowIncrement)

/-! ### Aliasing model of `clone`

`clone()` copies the buffer with `buffer.slice(0)` (image.js:358); whether the
copy shares storage with the source is invisible in a value-level model, so
the buffer is re-embedded as a reference into a heap of buffers. -/

/-- A heap of buffers; a buffer reference is a position in this list. -/
abbrev BufHeap : Type := List (List ℚ)

/-- An image whose `buffer` field is a heap reference. -/
abbrev HImage : Type := ImageT ℕ

/-- `getValueAtOffset` through the heap. -/
def HImage.getValueAtOffset (h : BufHeap) (img : HImage) (offset : ℕ) : ℚ :=
  (List.getD h img.buffer []).getD offset 0

/-- Write one buffer entry in place, as a caller holding the buffer does. -/
def BufHeap.write (h : BufHeap) (bid offset : ℕ) (v : ℚ) : BufHeap :=
  List.set h bid ((List.getD h bid []).set offset v)

/-- `clone()` (image.js:356-376) on the aliasing model: `buffer.slice(0)`
allocates a fresh heap cell holding a copy of the contents, the copy is built
by the constructor, the RSI state is copied through
`setRescaleSlopeAndIntercept` (per offset for the unreachable non-constant
state), and the photometric/planar tags and the meta reference are copied. -/
def HImage.clone (h : BufHeap) (img : HImage) : BufHeap × HImage :=
  let clonedBuffer := List.getD h img.buffer []
  let h2 := h ++ [clonedBuffer]
  let copy : HImage :=
    ImageT.construct img.geometry h.length clonedBuffer.length img.imageUids
  let copy :=
    if img.isConstantRSI then
      (copy.setRescaleSlopeAndIntercept (img.getRescaleSlopeAndIntercept none).1 none).1
    else
      (List.range img.getSecondaryOffsetMax).foldl
        (fun c i => (c.setRescaleSlopeAndIntercept (img.rsis.getD i img.rsi) (some i)).1)
        copy
  let copy := { copy with
    photometricInterpretation := img.photometricInterpretation,
    planarConfiguration := img.planarConfiguration,
    meta := img.meta }
  (h2, copy)

/-- `calculateDataRange()` (image.js:752-773) through the heap. -/
def HImage.calculateDataRange (h : BufHeap) (img : HImage) : ℚ × ℚ :=
  let size := img.geometry.size
  let leni := if 3 ≤ size.length then size.getDimSize 3 else size.getTotalSize 0
  let v0 := HImage.getValueAtOffset h img 0
  (List.range leni).foldl
    (fun mm i =>
      let v := HImage.getValueAtOffset h img i
      (if v < mm.1 then v else mm.1, if mm.2 < v then v else mm.2))
    (v0, v0)

/-- The images reachable from the public constructor through the entry points
that touch the RSI state. -/
inductive Reachable : Image → Prop
  | init (g : Geometry) (buf : List ℚ) (uids : List ℤ) :
      Reachable (Image.init g buf uids)
  | set {img : Image} (r : RescaleSlopeAndIntercept) (off : Option ℕ) :
      Reachable img → Reachable (img.setRescaleSlopeAndIntercept r off).1
  | append {img : Image} (rhs : Image) (t : ℕ) :
      Reachable img → Reachable (img.appendSlice rhs t).1

/-- Does the planner call succeed? -/
def isOkE {α : Type} : Except String α → Bool
  | .ok _ => true
  | .error _ => false

/-- Which primitive shape a planner result carries (0: simple, 1: counted,
2: three-component). -/
def SliceIter.kind : SliceIter → ℕ
  | .simple _ => 0
  | .counted _ => 1
  | .three _ => 2

/-- The offsets a region planner result reads while drained. -/
def regionReads (e : Except String RangeRegion) (fuel : ℕ) : List ℤ :=
  match e with
  | .ok it => readsTrace RangeRegion.next fuel it
  | .error _ => []

/-! ### Concrete fixtures -/

/-- Identity accessor used by concrete evaluations. -/
def accW : ℤ → ℚ := fun o => (o : ℚ)

/-- A 1x1x1 geometry with the identity orientation. -/
def geoA : Geometry :=
  { size := ⟨[1, 1, 1]⟩, orientation := [1, 0, 0, 0, 1, 0, 0, 0, 1],
    origins := [0], getSliceIndexFn := fun _ => 0 }

/-- A single-voxel single-component image. -/
def imgA : Image := Image.init geoA [0] [0]

/-- A single-voxel 3-component image (buffer length three times the voxel
count). -/
def imgB : Image := Image.init geoA [1, 2, 3] [0]

/-- A 3x2x1 geometry with the identity orientation. -/
def geoC : Geometry :=
  { size := ⟨[3, 2, 1]⟩, orientation := [1, 0, 0, 0, 1, 0, 0, 0, 1],
    origins := [0], getSliceIndexFn := fun _ => 0 }

/-- A 3x2x1 single-component image. -/
def imgC7 : Image := Image.init geoC [10, 11, 12, 13, 14, 15] [0]

/-- A 2x1x1 geometry. -/
def geoE : Geometry :=
  { size := ⟨[2, 1, 1]⟩, orientation := [1, 0, 0, 0, 1, 0, 0, 0, 1],
    origins := [0], getSliceIndexFn := fun _ => 0 }

/-- A two-voxel single-component image of constant value 7. -/
def imgC8 : Image := Image.init geoE [7, 7] [0]

/-- A two-voxel 2-component image: component count outside the supported
set. -/
def imgB2 : Image := Image.init geoE [1, 2, 3, 4] [0]

/-- A two-voxel 3-component image of constant value 5: six buffer samples. -/
def imgC8x : Image := Image.init geoE [5, 5, 5, 5, 5, 5] [0]

/-- A slice with two slices in the third dimension: invalid for append. -/
def geoF : Geometry :=
  { size := ⟨[1, 1, 2]⟩, orientation := [1, 0, 0, 0, 1, 0, 0, 0, 1],
    origins := [0, 1], getSliceIndexFn := fun _ => 0 }

/-- An already-multi-slice image, rejected by `appendSlice`. -/
def imgF : Image := Image.init geoF [0, 1] [0, 1]

/-- A one-buffer heap for the aliasing model. -/
def heapW : BufHeap := [[5, 7]]

/-- A heap image whose buffer is cell 0 of `heapW`. -/
def himgW : HImage := ImageT.construct geoA 0 2 [0]

/-! ### Helper lemmas -/

/-- A state fixed by `next` is fixed by any number of pulls. -/
theorem iterate_of_fixed {α σ : Type} (next : σ → Pull α σ) (s : σ)
    (h : next s = (none, [], s)) : ∀ n, iterate next n s = s := by
  intro n
  induction n with
  | zero => rfl
  | succ n ih => simpa [iterate, h] using ih

/-- Emitting pull of `simpleRange`. -/
theorem simpleRange_next_emit (s : SimpleRange) (h : s.nextIndex < s.endV) :
    SimpleRange.next s = (some (s.acc s.nextIndex), [s.nextIndex],
      { s with nextIndex := s.nextIndex + s.increment }) := by
  unfold SimpleRange.next
  rw [if_pos h]

/-- Exhausted pull of `simpleRange`. -/
theorem simpleRange_next_none (s : SimpleRange) (h : ¬ s.nextIndex < s.endV) :
    SimpleRange.next s = (none, [], s) := by
  unfold SimpleRange.next
  rw [if_neg h]

/-- A done pull of `simpleRange` reads nothing and leaves the state fixed. -/
theorem simpleRange_done (s : SimpleRange) (h : (SimpleRange.next s).1 = none) :
    SimpleRange.next s = (none, [], s) := by
  by_cases hc : s.nextIndex < s.endV
  · rw [simpleRange_next_emit s hc] at h
    exact absurd h (by simp)
  · exact simpleRange_next_none s hc

/-- Emitting pull of `range`: value and instrumented read. -/
theorem rangeIter_next_emit (s : RangeIter)
    (h : if s.reverse1 = true then s.start ≤ s.nextIndex else s.nextIndex ≤ s.endV) :
    (RangeIter.next s).1 = some (s.acc s.nextIndex) ∧
      (RangeIter.next s).2.1 = [s.nextIndex] := by
  unfold RangeIter.next
  rw [if_pos h]
  dsimp only
  split <;> exact ⟨rfl, rfl⟩

/-- Exhausted pull of `range`. -/
theorem rangeIter_next_none (s : RangeIter)
    (h : ¬ (if s.reverse1 = true then s.start ≤ s.nextIndex else s.nextIndex ≤ s.endV)) :
    RangeIter.next s = (none, [], s) := by
  unfold RangeIter.next
  rw [if_neg h]

/-- A done pull of `range` reads nothing and leaves the state fixed. -/
theorem rangeIter_done (s : RangeIter) (h : (RangeIter.next s).1 = none) :
    RangeIter.next s = (none, [], s) := by
  by_cases hc : (if s.reverse1 = true then s.start ≤ s.nextIndex else s.nextIndex ≤ s.endV)
  · rw [(rangeIter_next_emit s hc).1] at h
    exact absurd h (by simp)
  · exact rangeIter_next_none s hc

/-- Emitting pull of `rangeRegion`: value and instrumented read. -/
theorem rangeRegion_next_emit (s : RangeRegion) (h : s.nextIndex < s.endV) :
    (RangeRegion.next s).1 = some (s.acc s.nextIndex) ∧
      (RangeRegion.next s).2.1 = [s.nextIndex] := by
  unfold RangeRegion.next
  rw [if_pos h]
  dsimp only
  split <;> exact ⟨rfl, rfl⟩

/-- Exhausted pull of `rangeRegion`. -/
theorem rangeRegion_next_none (s : RangeRegion) (h : ¬ s.nextIndex < s.endV) :
    RangeRegion.next s = (none, [], s) := by
  unfold RangeRegion.next
  rw [if_neg h]

/-- Emitting pull of `rangeRegion` at a region boundary: full equation. -/
theorem rangeRegion_next_eq_jump (s : RangeRegion) (h : s.nextIndex < s.endV)
    (hr : s.regionElementCount + 1 = s.regionSize) :
    RangeRegion.next s = (some (s.acc s.nextIndex), [s.nextIndex],
      { s with nextIndex := s.nextIndex + s.increment + s.regionOffset,
               regionElementCount := 0 }) := by
  unfold RangeRegion.next
  rw [if_pos h]
  dsimp only
  rw [if_pos hr]

/-- Emitting pull of `rangeRegion` inside a region: full equation. -/
theorem rangeRegion_next_eq_step (s : RangeRegion) (h : s.nextIndex < s.endV)
    (hr : ¬ s.regionElementCount + 1 = s.regionSize) :
    RangeRegion.next s = (some (s.acc s.nextIndex), [s.nextIndex],
      { s with nextIndex := s.nextIndex + s.increment,
               regionElementCount := s.regionElementCount + 1 }) := by
  unfold RangeRegion.next
  rw [if_pos h]
  dsimp only
  rw [if_neg hr]

/-- A done pull of `rangeRegion` reads nothing and leaves the state fixed. -/
theorem rangeRegion_done (s : RangeRegion) (h : (RangeRegion.next s).1 = none) :
    RangeRegion.next s = (none, [], s) := by
  by_cases hc : s.nextIndex < s.endV
  · rw [(rangeRegion_next_emit s hc).1] at h
    exact absurd h (by simp)
  · exact rangeRegion_next_none s hc

/-- Emitting pull of `rangeRegions`: value and instrumented read. -/
theorem rangeRegions_next_emit (s : RangeRegions) (h : s.nextIndex < s.endV) :
    (RangeRegions.next s).1 = some (s.acc s.nextIndex) ∧
      (RangeRegions.next s).2.1 = [s.nextIndex] := by
  unfold RangeRegions.next
  rw [if_pos h]
  dsimp only
  split <;> exact ⟨rfl, rfl⟩

/-- Exhausted pull of `rangeRegions`. -/
theorem rangeRegions_next_none (s : RangeRegions) (h : ¬ s.nextIndex < s.endV) :
    RangeRegions.next s = (none, [], s) := by
  unfold RangeRegions.next
  rw [if_neg h]

/-- A done pull of `rangeRegions` reads nothing and leaves the state fixed. -/
theorem rangeRegions_done (s : RangeRegions) (h : (RangeRegions.next s).1 = none) :
    RangeRegions.next s = (none, [], s) := by
  by_cases hc : s.nextIndex < s.endV
  · rw [(rangeRegions_next_emit s hc).1] at h
    exact absurd h (by simp)
  · exact rangeRegions_next_none s hc

/-- Emitting pull of `range3d`. -/
theorem range3d_next_emit (s : Range3d) (h : s.nextIndex < s.endV) :
    Range3d.next s = (some (s.acc s.nextIndex, s.acc s.nextIndex1, s.acc s.nextIndex2),
      [s.nextIndex, s.nextIndex1, s.nextIndex2],
      { s with nextIndex := s.nextIndex + s.increment,
               nextIndex1 := s.nextIndex1 + s.increment,
               nextIndex2 := s.nextIndex2 + s.increment }) := by
  unfold Range3d.next
  rw [if_pos h]

/-- Exhausted pull of `range3d`. -/
theorem range3d_next_none (s : Range3d) (h : ¬ s.nextIndex < s.endV) :
    Range3d.next s = (none, [], s) := by
  unfold Range3d.next
  rw [if_neg h]

/-- A done pull of `range3d` reads nothing and leaves the state fixed. -/
theorem range3d_done (s : Range3d) (h : (Range3d.next s).1 = none) :
    Range3d.next s = (none, [], s) := by
  by_cases hc : s.nextIndex < s.endV
  · rw [range3d_next_emit s hc] at h
    exact absurd h (by simp)
  · exact range3d_next_none s hc

/-! ### C2 -/

/-- C2 (amended): bound discipline of the five traversal primitives.  For
`simpleRange`, `rangeRegion` and `rangeRegions` the bound is exclusive: every
accessor read is strictly below `end`, and `start == end` yields an
immediately-done first pull.  For `range` the tested bound is inclusive:
forward reads satisfy `offset <= end` (reversed reads `offset >= start`), and
a forward iterator with `start == end` emits the value at `end` on its first
pull instead of being done.  For `range3d` the primary index is strictly below
`end` but its two component companions are offset from it.  For all five,
once a pull is done every later pull is done, reads nothing, and leaves the
state unchanged. -/
theorem c2_amended :
    (∀ (s : SimpleRange), ∀ o ∈ (SimpleRange.next s).2.1, o < s.endV)
  ∧ (∀ (acc : ℤ → ℚ) (e inc : ℤ), ((simpleRange acc e e inc).next).1 = none)
  ∧ (∀ (s : SimpleRange), (SimpleRange.next s).1 = none →
      ∀ n, SimpleRange.next (iterate SimpleRange.next n s) = (none, [], s))
  ∧ (∀ (s : RangeIter), s.reverse1 = false →
      ∀ o ∈ (RangeIter.next s).2.1, o ≤ s.endV)
  ∧ (∀ (s : RangeIter), s.reverse1 = true →
      ∀ o ∈ (RangeIter.next s).2.1, s.start ≤ o)
  ∧ (∀ (acc : ℤ → ℚ) (e inc cm ci : ℤ),
      ((range acc e e inc cm ci false false).next).1 = some (acc e))
  ∧ (∀ (s : RangeIter), (RangeIter.next s).1 = none →
      ∀ n, RangeIter.next (iterate RangeIter.next n s) = (none, [], s))
  ∧ (∀ (s : RangeRegion), ∀ o ∈ (RangeRegion.next s).2.1, o < s.endV)
  ∧ (∀ (acc : ℤ → ℚ) (e inc rs ro : ℤ),
      ((rangeRegion acc e e inc rs ro).next).1 = none)
  ∧ (∀ (s : RangeRegion), (RangeRegion.next s).1 = none →
      ∀ n, RangeRegion.next (iterate RangeRegion.next n s) = (none, [], s))
  ∧ (∀ (s : RangeRegions), ∀ o ∈ (RangeRegions.next s).2.1, o < s.endV)
  ∧ (∀ (acc : ℤ → ℚ) (e inc : ℤ) (regs : List (ℤ × ℤ × ℤ)),
      ((rangeRegions acc e e inc regs).next).1 = none)
  ∧ (∀ (s : RangeRegions), (RangeRegions.next s).1 = none →
      ∀ n, RangeRegions.next (iterate RangeRegions.next n s) = (none, [], s))
  ∧ (∀ (s : Range3d) (r : ℚ × ℚ × ℚ), (Range3d.next s).1 = some r →
      s.nextIndex < s.endV ∧
        (Range3d.next s).2.1 = [s.nextIndex, s.nextIndex1, s.nextIndex2])
  ∧ (∀ (acc : ℤ → ℚ) (e inc : ℤ) (p : Bool), ((range3d acc e e inc p).next).1 = none)
  ∧ (∀ (s : Range3d), (Range3d.next s).1 = none →
      ∀ n, Range3d.next (iterate Range3d.next n s) = (none, [], s)) := by
  refine ⟨?_, ?_, ?_, ?_, ?_, ?_, ?_, ?_, ?_, ?_, ?_, ?_, ?_, ?_, ?_, ?_⟩
  · intro s o ho
    by_cases hc : s.nextIndex < s.endV
    · rw [simpleRange_next_emit s hc] at ho
      simp at ho
      omega
    · rw [simpleRange_next_none s hc] at ho
      simp at ho
  · intro acc e inc
    rw [simpleRange_next_none _ (by simp [simpleRange])]
  · intro s h n
    have hfix := simpleRange_done s h
    rw [iterate_of_fixed _ _ hfix n, hfix]
  · intro s hrev o ho
    by_cases hc : s.nextIndex ≤ s.endV
    · rw [(rangeIter_next_emit s (by rw [hrev]; exact hc)).2] at ho
      simp at ho
      omega
    · rw [rangeIter_next_none s (by rw [hrev]; exact hc)] at ho
      simp at ho
  · intro s hrev o ho
    by_cases hc : s.start ≤ s.nextIndex
    · rw [(rangeIter_next_emit s (by rw [hrev]; exact hc)).2] at ho
      simp at ho
      omega
    · rw [rangeIter_next_none s (by rw [hrev]; exact hc)] at ho
      simp at ho
  · intro acc e inc cm ci
    exact (rangeIter_next_emit (range acc e e inc cm ci false false)
      (by simp [range])).1
  · intro s h n
    have hfix := rangeIter_done s h
    rw [iterate_of_fixed _ _ hfix n, hfix]
  · intro s o ho
    by_cases hc : s.nextIndex < s.endV
    · rw [(rangeRegion_next_emit s hc).2] at ho
      simp at ho
      omega
    · rw [rangeRegion_next_none s hc] at ho
      simp at ho
  · intro acc e inc rs ro
    rw [rangeRegion_next_none _ (by simp [rangeRegion])]
  · intro s h n
    have hfix := rangeRegion_done s h
    rw [iterate_of_fixed _ _ hfix n, hfix]
  · intro s o ho
    by_cases hc : s.nextIndex < s.endV
    · rw [(rangeRegions_next_emit s hc).2] at ho
      simp at ho
      omega
    · rw [rangeRegions_next_none s hc] at ho
      simp at ho
  · intro acc e inc regs
    rw [rangeRegions_next_none _ (by simp [rangeRegions])]
  · intro s h n
    have hfix := rangeRegions_done s h
    rw [iterate_of_fixed _ _ hfix n, hfix]
  · intro s r h
    by_cases hc : s.nextIndex < s.endV
    · rw [range3d_next_emit s hc]
      exact ⟨hc, rfl⟩
    · rw [range3d_next_none s hc] at h
      exact absurd h (by simp)
  · intro acc e inc p
    rw [range3d_next_none _ (by simp [range3d])]
  · intro s h n
    have hfix := range3d_done s h
    rw [iterate_of_fixed _ _ hfix n, hfix]

/-- Witness for C2: instantiating the first clause shows a concrete
`simpleRange` read below the bound. -/
theorem c2_witness : (0 : ℤ) < 5 :=
  c2_amended.1 ⟨accW, 5, 1, 0⟩ 0 (by simp [SimpleRange.next])

/-- Counterexample to C2 as stated: a `range` iterator with
`start == end == 0` is not immediately done — its first pull emits the value
read at offset 0 = `end`, so the `end` bound is not exclusive for `range`. -/
theorem c2_counterexample :
    ((range accW 0 0 1 1 1 false false).next).1 = some 0 ∧
      ((range accW 0 0 1 1 1 false false).next).2.1 = [0] := by
  constructor <;> simp [range, RangeIter.next, accW]

/-! ### C3 -/

/-- Forward `range` with a zero `finalCountIncrement` advances exactly like
`simpleRange` with the bound raised by one, whatever the count state. -/
theorem range_drain_eq_simple (acc : ℤ → ℚ) (start endV inc cm : ℤ) :
    ∀ (n : ℕ) (ni c : ℤ),
      drain RangeIter.next n
        { acc := acc, start := start, endV := endV, increment := inc,
          countMax := cm, finalCountIncrement := 0, reverse1 := false,
          nextIndex := ni, count := c } =
      drain SimpleRange.next n
        { acc := acc, endV := endV + 1, increment := inc, nextIndex := ni } := by
  intro n
  induction n with
  | zero => intro ni c; rfl
  | succ n ih =>
    intro ni c
    by_cases hc : ni ≤ endV
    · have hc2 : ni < endV + 1 := Int.lt_add_one_iff.mpr hc
      by_cases hcm : c + 1 = cm <;>
        simp only [drain, RangeIter.next, SimpleRange.next, hc, hc2, hcm,
          if_true, if_false, ite_true, ite_false, add_zero] <;>
        exact congrArg _ (ih _ _)
    · have hc2 : ¬ ni < endV + 1 := fun h => hc (Int.lt_add_one_iff.mp h)
      simp [drain, RangeIter.next, SimpleRange.next, hc, hc2]

/-- C3 (amended): `range` with `reverse1 = reverse2 = false`,
`countMax = end - start` and the contiguous `countIncrement =
(end - start) * increment` emits exactly the same value sequence as
`simpleRange(accessor, start, end + 1, increment)` — the counted range treats
`end` inclusively, so the matching simple range must stop one past it. -/
theorem c3_amended (acc : ℤ → ℚ) (start endV inc : ℤ) (n : ℕ) :
    drain RangeIter.next n
        (range acc start endV inc (endV - start) ((endV - start) * inc) false false) =
      drain SimpleRange.next n (simpleRange acc start (endV + 1) inc) := by
  have h := range_drain_eq_simple acc start endV inc (endV - start) n start 0
  simpa [range, simpleRange, sub_self] using h

/-- Counterexample to C3 as stated: with `start = 0`, `end = 2`,
`increment = 1`, `countMax = 2`, `countIncrement = 2`, the counted range
emits `[0, 1, 2]` while `simpleRange(0, 2, 1)` emits `[0, 1]`. -/
theorem c3_counterexample :
    drain RangeIter.next 5 (range accW 0 2 1 2 2 false false) ≠
      drain SimpleRange.next 5 (simpleRange accW 0 2 1) := by
  decide

/-! ### C1 -/

/-- C1 (amended): `getSliceIterator` does not fail for a 3-component image
with an explicit view orientation — it ignores the orientation and returns
the 3-component (`range3d`) iterator; the "unsupported number of components"
error is raised exactly as the source writes it when the component count is
outside {1, 3}. -/
theorem c1_amended :
    (∀ (img : Image) (pos : List ℤ) (r : Bool) (vo : ViewOrientation),
        img.numberOfComponents = 3 →
        Except.map SliceIter.kind (getSliceIterator img pos r (some vo)) =
          Except.ok 2)
  ∧ (∀ (img : Image) (pos : List ℤ) (r : Bool) (vo : Option ViewOrientation),
        img.numberOfComponents ≠ 1 → img.numberOfComponents ≠ 3 →
        getSliceIterator img pos r vo =
          Except.error ("Unsupported number of components: " ++
            toString img.numberOfComponents)) := by
  constructor
  · intro img pos r vo h3
    simp [getSliceIterator, h3, SliceIter.kind, Except.map]
  · intro img pos r vo h1 h3
    cases vo <;> simp [getSliceIterator, h1, h3]

/-- Witness for C1: a concrete 3-component image with an orientation yields a
`range3d` iterator, and a concrete 2-component image is rejected. -/
theorem c1_witness :
    Except.map SliceIter.kind (getSliceIterator imgB [0, 0, 0] false
        (some ⟨0, 2⟩)) = Except.ok 2 ∧
      getSliceIterator imgB2 [0, 0, 0] false none =
        Except.error ("Unsupported number of components: " ++
          toString imgB2.numberOfComponents) :=
  ⟨c1_amended.1 imgB [0, 0, 0] false ⟨0, 2⟩ (by decide),
    c1_amended.2 imgB2 [0, 0, 0] false none (by decide) (by decide)⟩

/-- Counterexample to C1 as stated: for this 3-component image,
`getSliceIterator` with an explicit view orientation succeeds instead of
failing with an "unsupported component count" error. -/
theorem c1_counterexample :
    isOkE (getSliceIterator imgB [0, 0, 0] false (some ⟨0, 2⟩)) = true := by
  rfl

/-! ### RSI state invariants -/

/-- `setRescaleSlopeAndIntercept` never changes the constant-RSI flag: the
per-offset switch is dead code. -/
theorem setRSI_isConstant {β : Type} (img : ImageT β)
    (r : RescaleSlopeAndIntercept) (off : Option ℕ) :
    ((img.setRescaleSlopeAndIntercept r off).1).isConstantRSI =
      img.isConstantRSI := by
  unfold ImageT.setRescaleSlopeAndIntercept
  cases hb : img.isConstantRSI <;> cases he : img.rsi.equals r <;> simp [hb, he]

/-- `setRescaleSlopeAndIntercept` never changes the buffer. -/
theorem setRSI_buffer {β : Type} (img : ImageT β)
    (r : RescaleSlopeAndIntercept) (off : Option ℕ) :
    ((img.setRescaleSlopeAndIntercept r off).1).buffer = img.buffer := by
  unfold ImageT.setRescaleSlopeAndIntercept
  cases hb : img.isConstantRSI <;> cases he : img.rsi.equals r <;> simp [hb, he]

/-- `setRescaleSlopeAndIntercept` keeps the coupling "identity flag implies
identity RSI". -/
theorem setRSI_flagOK {β : Type} (img : ImageT β)
    (r : RescaleSlopeAndIntercept) (off : Option ℕ)
    (h : img.isIdentityRSI = true → img.rsi.isID = true) :
    ((img.setRescaleSlopeAndIntercept r off).1).isIdentityRSI = true →
      ((img.setRescaleSlopeAndIntercept r off).1).rsi.isID = true := by
  unfold ImageT.setRescaleSlopeAndIntercept
  cases hb : img.isConstantRSI <;> cases he : img.rsi.equals r <;>
    simp [hb, he] <;> intro h1 h2 <;> first | exact h h1 | exact h2

/-- `realloc` only changes the buffer. -/
theorem realloc_isConstant (img : Image) (n : ℕ) :
    (img.realloc n).isConstantRSI = img.isConstantRSI := rfl

/-- `realloc` only changes the buffer (identity flag). -/
theorem realloc_isIdentity (img : Image) (n : ℕ) :
    (img.realloc n).isIdentityRSI = img.isIdentityRSI := rfl

/-- `realloc` only changes the buffer (constant RSI value). -/
theorem realloc_rsi (img : Image) (n : ℕ) : (img.realloc n).rsi = img.rsi := rfl

/-- The first-frame shift only changes the buffer. -/
theorem appendShiftFirstFrame_isConstant (img : Image) (n o p s : ℕ) :
    (appendShiftFirstFrame img n o p s).isConstantRSI = img.isConstantRSI := by
  unfold appendShiftFirstFrame
  repeat' split
  all_goals rfl

/-- The first-frame shift only changes the buffer (identity flag). -/
theorem appendShiftFirstFrame_isIdentity (img : Image) (n o p s : ℕ) :
    (appendShiftFirstFrame img n o p s).isIdentityRSI = img.isIdentityRSI := by
  unfold appendShiftFirstFrame
  repeat' split
  all_goals rfl

/-- The first-frame shift only changes the buffer (constant RSI value). -/
theorem appendShiftFirstFrame_rsi (img : Image) (n o p s : ℕ) :
    (appendShiftFirstFrame img n o p s).rsi = img.rsi := by
  unfold appendShiftFirstFrame
  repeat' split
  all_goals rfl

/-- The window-preset merge only changes the meta object. -/
theorem applyWindowPresets_isConstant (img rhs : Image) (n so : ℕ) :
    (applyWindowPresets img rhs n so).isConstantRSI = img.isConstantRSI := by
  unfold applyWindowPresets
  split
  all_goals rfl

/-- The window-preset merge only changes the meta (identity flag). -/
theorem applyWindowPresets_isIdentity (img rhs : Image) (n so : ℕ) :
    (applyWindowPresets img rhs n so).isIdentityRSI = img.isIdentityRSI := by
  unfold applyWindowPresets
  split
  all_goals rfl

/-- The window-preset merge only changes the meta (constant RSI value). -/
theorem applyWindowPresets_rsi (img rhs : Image) (n so : ℕ) :
    (applyWindowPresets img rhs n so).rsi = img.rsi := by
  unfold applyWindowPresets
  split
  all_goals rfl

/-- `appendProcess` never changes the constant-RSI flag. -/
theorem appendProcess_isConstant (img rhs : Image) (t f n o p so ss : ℕ) :
    ((appendProcess img rhs t f n o p so ss).1).isConstantRSI =
      img.isConstantRSI := by
  unfold appendProcess
  dsimp only
  repeat' split
  all_goals simp [setRSI_isConstant, realloc_isConstant,
    appendShiftFirstFrame_isConstant, applyWindowPresets_isConstant]

/-- `appendProcess` keeps the coupling "identity flag implies identity RSI". -/
theorem appendProcess_flagOK (img rhs : Image) (t f n o p so ss : ℕ)
    (h : img.isIdentityRSI = true → img.rsi.isID = true) :
    ((appendProcess img rhs t f n o p so ss).1).isIdentityRSI = true →
      ((appendProcess img rhs t f n o p so ss).1).rsi.isID = true := by
  unfold appendProcess
  dsimp only
  repeat' split
  all_goals
    simp only [applyWindowPresets_isIdentity, applyWindowPresets_rsi]
  all_goals intro h1
  all_goals first
    | exact h h1
    | (simp only [realloc_isIdentity, realloc_rsi,
         appendShiftFirstFrame_isIdentity, appendShiftFirstFrame_rsi] at h1 ⊢
       exact h h1)
    | exact setRSI_flagOK _ _ _
        (by
          try simp only [realloc_isIdentity, realloc_rsi,
            appendShiftFirstFrame_isIdentity, appendShiftFirstFrame_rsi]
          exact h) h1

/-- `appendSlice` never changes the constant-RSI flag. -/
theorem appendSlice_isConstant (img rhs : Image) (t : ℕ) :
    ((img.appendSlice rhs t).1).isConstantRSI = img.isConstantRSI := by
  unfold Image.appendSlice
  dsimp only
  repeat' split
  all_goals first
    | rfl
    | apply appendProcess_isConstant

/-- `appendSlice` keeps the coupling "identity flag implies identity RSI". -/
theorem appendSlice_flagOK (img rhs : Image) (t : ℕ)
    (h : img.isIdentityRSI = true → img.rsi.isID = true) :
    ((img.appendSlice rhs t).1).isIdentityRSI = true →
      ((img.appendSlice rhs t).1).rsi.isID = true := by
  unfold Image.appendSlice
  dsimp only
  repeat' split
  all_goals intro h1
  all_goals first
    | exact h h1
    | exact appendProcess_flagOK _ _ _ _ _ _ _ _ _ h h1

/-- Every image reachable from the constructor is in constant-RSI mode and
couples the identity flag with an identity constant RSI. -/
theorem reachable_inv (img : Image) (h : Reachable img) :
    img.isConstantRSI = true ∧
      (img.isIdentityRSI = true → img.rsi.isID = true) := by
  induction h with
  | init g buf uids => exact ⟨rfl, fun _ => rfl⟩
  | set r off _ ih =>
    refine ⟨?_, setRSI_flagOK _ _ _ ih.2⟩
    rw [setRSI_isConstant]
    exact ih.1
  | append rhs t _ ih =>
    refine ⟨?_, appendSlice_flagOK _ _ _ ih.2⟩
    rw [appendSlice_isConstant]
    exact ih.1

/-- An identity-test success means the pair really is `(1, 0)`. -/
theorem isID_fields (r : RescaleSlopeAndIntercept) (h : r.isID = true) :
    r.slope = 1 ∧ r.intercept = 0 := by
  unfold RescaleSlopeAndIntercept.isID at h
  simpa using h

/-! ### C4 -/

/-- C4 (code bug, evaluated at the failing input): on a fresh image,
`setRescaleSlopeAndIntercept` with the differing RSI `(2, 3)` and offset 0
replaces the constant RSI and keeps `isConstantRSI()` true, instead of
switching to per-offset mode — the guard reads `typeof index === 'undefined'`
where no `index` variable is in scope, so the switch branch is unreachable. -/
theorem c4_eval :
    ((imgA.setRescaleSlopeAndIntercept ⟨2, 3⟩ (some 0)).1).isConstantRSI = true ∧
      ((imgA.setRescaleSlopeAndIntercept ⟨2, 3⟩ (some 0)).1).rsi =
        RescaleSlopeAndIntercept.mk 2 3 ∧
      (imgA.setRescaleSlopeAndIntercept ⟨2, 3⟩ (some 0)).2 = none := by
  decide

/-! ### C5 -/

/-- C5: for every reachable image (whose RSI state is therefore a constant
pair `(s, b)`), `getRescaledValueAtOffset(o)` equals
`getValueAtOffset(o) * s + b`; in particular the raw value is returned
unchanged when the pair is the identity `(1, 0)`. -/
theorem c5 (img : Image) (h : Reachable img) (o : ℕ) :
    img.getRescaledValueAtOffset o =
      img.getValueAtOffset o * img.rsi.slope + img.rsi.intercept ∧
    (img.rsi = ⟨1, 0⟩ →
      img.getRescaledValueAtOffset o = img.getValueAtOffset o) := by
  obtain ⟨hc, hid⟩ := reachable_inv img h
  have hmain : img.getRescaledValueAtOffset o =
      img.getValueAtOffset o * img.rsi.slope + img.rsi.intercept := by
    unfold Image.getRescaledValueAtOffset
    by_cases hi : img.isIdentityRSI = true
    · obtain ⟨h1, h0⟩ := isID_fields _ (hid hi)
      simp [hi, h1, h0]
    · simp only [hi, if_false, hc, Bool.not_true,
        ImageT.getRescaleSlopeAndIntercept, RescaleSlopeAndIntercept.apply]
      simp [hi]
  refine ⟨hmain, fun hrsi => ?_⟩
  rw [hmain, hrsi]
  simp

/-- Witness for C5: the fresh single-voxel image, reachable by construction,
satisfies the constant-RSI rescale identity at offset 0. -/
theorem c5_witness :
    imgA.getRescaledValueAtOffset 0 =
      imgA.getValueAtOffset 0 * imgA.rsi.slope + imgA.rsi.intercept :=
  (c5 imgA (Reachable.init geoA [0] [0]) 0).1

/-! ### C10 -/

/-- C10: a constructed image reports `isConstantRSI() = true`; the flag stays
true across every `setRescaleSlopeAndIntercept` (with or without offset) and
every `appendSlice`; consequently `getRescaledValueAtOffset` resolves through
the constant RSI (never the per-offset path) and
`getRescaleSlopeAndIntercept` returns the constant RSI without error. -/
theorem c10 :
    (∀ (g : Geometry) (buf : List ℚ) (uids : List ℤ),
        (Image.init g buf uids).isConstantRSI = true)
  ∧ (∀ (img : Image) (r : RescaleSlopeAndIntercept) (off : Option ℕ),
        img.isConstantRSI = true →
        ((img.setRescaleSlopeAndIntercept r off).1).isConstantRSI = true)
  ∧ (∀ (img rhs : Image) (t : ℕ), img.isConstantRSI = true →
        ((img.appendSlice rhs t).1).isConstantRSI = true)
  ∧ (∀ (img : Image) (o : ℕ), img.isConstantRSI = true →
        img.getRescaledValueAtOffset o =
          (if img.isIdentityRSI = true then img.getValueAtOffset o
            else img.rsi.apply (img.getValueAtOffset o)))
  ∧ (∀ (img : Image) (idx : Option (List ℤ)), img.isConstantRSI = true →
        img.getRescaleSlopeAndIntercept idx = (img.rsi, none)) := by
  refine ⟨?_, ?_, ?_, ?_, ?_⟩
  · intro g buf uids
    rfl
  · intro img r off h
    rw [setRSI_isConstant]
    exact h
  · intro img rhs t h
    rw [appendSlice_isConstant]
    exact h
  · intro img o h
    unfold Image.getRescaledValueAtOffset
    by_cases hi : img.isIdentityRSI = true
    · simp [hi]
    · simp [hi, h, ImageT.getRescaleSlopeAndIntercept]
  · intro img idx h
    unfold ImageT.getRescaleSlopeAndIntercept
    simp [h]

/-- Witness for C10: the flag stays true on a concrete image after a
constant-RSI replacement without an offset. -/
theorem c10_witness :
    ((imgA.setRescaleSlopeAndIntercept ⟨2, 3⟩ none).1).isConstantRSI = true :=
  c10.2.1 imgA ⟨2, 3⟩ none (by decide)

/-! ### C6 -/

/-- C6: whenever `appendSlice` fails one of its validation checks — wrong
slice count, differing columns, rows, orientation, photometric
interpretation, a differing or missing meta key other than
windowPresets/numberOfFiles, or an unknown numberOfFiles — it returns a
descriptive error and the image exactly as it was before the call (buffer,
geometry, RSI state and UID list included). -/
theorem c6 (img rhs : Image) (t : ℕ)
    (hfail :
      rhs.geometry.size.get 2 ≠ 1 ∨
      img.geometry.size.get 0 ≠ rhs.geometry.size.get 0 ∨
      img.geometry.size.get 1 ≠ rhs.geometry.size.get 1 ∨
      ¬ Matrix33.equals img.geometry.orientation rhs.geometry.orientation
          (1 / 10000) = true ∨
      img.photometricInterpretation ≠ rhs.photometricInterpretation ∨
      (∃ kv ∈ img.meta.other, rhs.meta.other.lookup kv.1 ≠ some kv.2) ∨
      img.meta.numberOfFiles = none) :
    (img.appendSlice rhs t).1 = img ∧
      ((img.appendSlice rhs t).2).isSome = true := by
  unfold Image.appendSlice
  dsimp only
  split
  next h1 => exact ⟨rfl, rfl⟩
  next h1 =>
    split
    next h2 => exact ⟨rfl, rfl⟩
    next h2 =>
      split
      next h3 => exact ⟨rfl, rfl⟩
      next h3 =>
        split
        next h4 => exact ⟨rfl, rfl⟩
        next h4 =>
          split
          next h5 => exact ⟨rfl, rfl⟩
          next h5 =>
            split
            next kv hkv => exact ⟨rfl, rfl⟩
            next hfind =>
              split
              next hnf => exact ⟨rfl, rfl⟩
              next nFiles hnf =>
                exfalso
                rcases hfail with h | h | h | h | h | h | h
                · exact h1 h
                · exact h2 h
                · exact h3 h
                · cases hb : Matrix33.equals img.geometry.orientation
                      rhs.geometry.orientation (1 / 10000) with
                  | false => exact h4 (by rw [hb]; rfl)
                  | true => exact h hb
                · exact h5 h
                · obtain ⟨kv, hkv, hne⟩ := h
                  have hp := List.find?_eq_none.mp hfind kv hkv
                  simp at hp
                  exact hne hp
                · rw [h] at hnf
                  exact Option.noConfusion hnf

/-- Witness for C6: appending an already-multi-slice image fails and leaves
the target image untouched. -/
theorem c6_witness :
    (imgA.appendSlice imgF 0).1 = imgA ∧
      ((imgA.appendSlice imgF 0).2).isSome = true :=
  c6 imgA imgF 0 (Or.inl (by decide))

/-! ### C7 -/

/-- Peeling the first element off a shifted offset enumeration. -/
theorem map_range_succ_shift (w : ℕ) (base : ℤ) :
    (List.range (w + 1)).map (fun (i : ℕ) => base + (i : ℤ)) =
      base :: (List.range w).map (fun (i : ℕ) => base + 1 + (i : ℤ)) := by
  rw [List.range_succ_eq_map, List.map_cons, List.map_map]
  congr 1
  · simp
  · apply List.map_congr_left
    intro i _
    simp only [Function.comp_apply]
    push_cast
    ring

/-- Draining one region row of a unit-increment `rangeRegion`: with `n` more
elements before the region boundary and all of them below `end`, the next `n`
pulls read `nextIndex, nextIndex+1, ...` and then the cursor jumps by the
region offset. -/
theorem rangeRegion_row (n : ℕ) : ∀ (fuel : ℕ) (s : RangeRegion),
    s.increment = 1 →
    s.regionElementCount + (n : ℤ) = s.regionSize →
    1 ≤ n →
    s.nextIndex + (n : ℤ) ≤ s.endV →
    n ≤ fuel →
    readsTrace RangeRegion.next fuel s =
      ((List.range n).map (fun (i : ℕ) => s.nextIndex + (i : ℤ))) ++
        readsTrace RangeRegion.next (fuel - n)
          { s with nextIndex := s.nextIndex + (n : ℤ) + s.regionOffset,
                   regionElementCount := 0 } := by
  induction n with
  | zero => intro fuel s _ _ hpos; omega
  | succ n ih =>
    intro fuel s hinc hcount _ hend hfuel
    obtain ⟨f, rfl⟩ : ∃ f, fuel = f + 1 := ⟨fuel - 1, by omega⟩
    have hlt : s.nextIndex < s.endV := by
      have : (0 : ℤ) < (n : ℤ) + 1 := by positivity
      push_cast at hend
      omega
    cases n with
    | zero =>
      have hrs : s.regionElementCount + 1 = s.regionSize := by
        push_cast at hcount
        omega
      simp only [readsTrace, rangeRegion_next_eq_jump s hlt hrs, hinc]
      simp [List.range_succ]
    | succ m =>
      have hrs : ¬ s.regionElementCount + 1 = s.regionSize := by
        push_cast at hcount ⊢
        omega
      simp only [readsTrace, rangeRegion_next_eq_step s hlt hrs, hinc]
      have ihres := ih f
        { s with nextIndex := s.nextIndex + 1,
                 regionElementCount := s.regionElementCount + 1 }
        hinc (by push_cast at hcount ⊢; omega) (by omega)
        (by push_cast at hend ⊢; omega) (by omega)
      dsimp only at ihres
      rw [hinc] at ihres
      rw [ihres]
      rw [map_range_succ_shift]
      have hfe : f + 1 - (m + 1 + 1) = f - (m + 1) := by omega
      have hrec : s.nextIndex + ((m + 1 + 1 : ℕ) : ℤ) + s.regionOffset =
          s.nextIndex + 1 + ((m + 1 : ℕ) : ℤ) + s.regionOffset := by
        push_cast
        ring
      rw [hfe, hrec]
      rw [map_range_succ_shift, map_range_succ_shift]
      simp

/-- Peeling the first row off a row-major offset enumeration. -/
theorem flatMap_shift (m w : ℕ) (base c : ℤ) :
    (List.range (m + 1)).flatMap
        (fun (j : ℕ) => (List.range w).map (fun (i : ℕ) => base + (j : ℤ) * c + (i : ℤ))) =
      ((List.range w).map (fun (i : ℕ) => base + (i : ℤ))) ++
        (List.range m).flatMap
          (fun (j : ℕ) => (List.range w).map
            (fun (i : ℕ) => base + c + (j : ℤ) * c + (i : ℤ))) := by
  rw [List.range_succ_eq_map, List.flatMap_cons, List.flatMap_map]
  congr 1
  · simp
  · congr 1
    funext a
    congr 1
    funext i
    push_cast
    ring

/-- Draining `m` rows of width `w` with a per-row skip of `c - w`: the trace
is exactly the row-major list of per-row offsets. -/
theorem rangeRegion_rows (m : ℕ) : ∀ (fuel : ℕ) (s : RangeRegion) (w c : ℕ),
    s.increment = 1 →
    s.regionElementCount = 0 →
    s.regionSize = (w : ℤ) →
    s.regionOffset = (c : ℤ) - (w : ℤ) →
    1 ≤ w → w ≤ c →
    s.endV = s.nextIndex + (m : ℤ) * (c : ℤ) →
    m * w ≤ fuel →
    readsTrace RangeRegion.next fuel s =
      (List.range m).flatMap (fun (j : ℕ) => (List.range w).map
        (fun (i : ℕ) => s.nextIndex + (j : ℤ) * (c : ℤ) + (i : ℤ))) := by
  induction m with
  | zero =>
    intro fuel s w c _ _ _ _ _ _ hend _
    have hdone : ¬ s.nextIndex < s.endV := by
      rw [hend]
      push_cast
      omega
    cases fuel with
    | zero => rfl
    | succ f => simp [readsTrace, rangeRegion_next_none s hdone]
  | succ m ih =>
    intro fuel s w c hinc hrec hrs hro hw hwc hend hfuel
    have hmul : (m + 1) * w = m * w + w := by ring
    have hwfuel : w ≤ fuel := by omega
    have hrow := rangeRegion_row w fuel s hinc (by rw [hrec, hrs]; ring) hw
      (by
        rw [hend]
        have h1 : (w : ℤ) ≤ (c : ℤ) := by exact_mod_cast hwc
        have h2 : (c : ℤ) ≤ ((m : ℤ) + 1) * c := by
          nlinarith [Int.ofNat_nonneg c, Int.ofNat_nonneg m]
        push_cast
        omega)
      hwfuel
    rw [hrow]
    have hni : s.nextIndex + (w : ℤ) + s.regionOffset = s.nextIndex + (c : ℤ) := by
      rw [hro]
      ring
    rw [hni]
    have ihres := ih (fuel - w)
      { s with nextIndex := s.nextIndex + (c : ℤ), regionElementCount := 0 }
      w c hinc rfl hrs hro hw hwc
      (by
        dsimp only
        rw [hend]
        push_cast
        ring)
      (by omega)
    dsimp only at ihres
    rw [ihres]
    rw [flatMap_shift]

/-- C7 (amended): with `min`/`max` omitted, `getRegionSliceIterator` defaults
the corners to `(0, 0)` and `(ncols - 1, nrows)`, so the emitted row width is
`max 1 (ncols - 1)`: draining visits, row by row with the per-row skip
`rowIncrement = ncols - rangeWidth` and a minimum emitted row width of 1, the
first `max 1 (ncols - 1)` offsets of each of the `nrows` rows of the current
slice — the last column of every row is skipped whenever `ncols >= 2`. -/
theorem c7_amended (img : Image) (c r ns : ℕ) (px py k : ℤ) (isResc : Bool)
    (fuel : ℕ)
    (h1 : img.numberOfComponents = 1)
    (hsz : img.geometry.size.sizes = [c, r, ns])
    (hc : 1 ≤ c)
    (hfuel : r * max 1 (c - 1) ≤ fuel) :
    ∃ it, getRegionSliceIterator img [px, py, k] isResc none none =
        Except.ok it ∧
      readsTrace RangeRegion.next fuel it =
        (List.range r).flatMap (fun (j : ℕ) => (List.range (max 1 (c - 1))).map
          (fun (i : ℕ) => (c : ℤ) * ((r : ℤ) * k) + (j : ℤ) * (c : ℤ) + (i : ℤ))) := by
  have hne : ¬ img.numberOfComponents ≠ 1 := by simp [h1]
  have hget0 : img.geometry.size.get 0 = c := by rw [Size.get, hsz]; rfl
  have hwc : max 1 (c - 1) ≤ c := by omega
  have hcastw : ((max 1 (c - 1) : ℕ) : ℤ) = max 1 ((c : ℤ) - 1) := by
    rcases Nat.lt_or_ge c 2 with h | h
    · have hc1 : c = 1 := by omega
      subst hc1
      simp
    · have hn : max 1 (c - 1) = c - 1 := by omega
      have hz : max 1 ((c : ℤ) - 1) = (c : ℤ) - 1 := by
        rw [max_eq_right]
        have : (2 : ℤ) ≤ (c : ℤ) := by exact_mod_cast h
        omega
      rw [hn, hz]
      omega
  have hS : Geometry.indexToOffset img.geometry (getWithNew2D [px, py, k] 0 0) =
      (c : ℤ) * ((r : ℤ) * k) := by
    simp [Geometry.indexToOffset, Size.indexToOffsetFrom, getWithNew2D, hsz,
      offsetOf]
  have hE : Geometry.indexToOffset img.geometry
      (getWithNew2D [px, py, k] ((img.geometry.size.get 0 : ℤ) - 1)
        ((img.geometry.size.get 1 : ℤ) - 1)) + 1 =
      (c : ℤ) * ((r : ℤ) * k) + (r : ℤ) * (c : ℤ) := by
    simp [Geometry.indexToOffset, Size.indexToOffsetFrom, getWithNew2D, hsz,
      offsetOf, Size.get]
    ring
  have hcall : getRegionSliceIterator img [px, py, k] isResc none none =
      Except.ok (rangeRegion
        (if isResc then fun o => img.getRescaledValueAtOffsetZ o
          else fun o => img.getValueAtOffsetZ o)
        ((c : ℤ) * ((r : ℤ) * k))
        ((c : ℤ) * ((r : ℤ) * k) + (r : ℤ) * (c : ℤ))
        1 ((max 1 (c - 1) : ℕ) : ℤ)
        ((c : ℤ) - ((max 1 (c - 1) : ℕ) : ℤ))) := by
    unfold getRegionSliceIterator
    rw [if_neg hne]
    simp only [Option.getD]
    rw [hS, hE, hget0, sub_zero, ← hcastw]
  refine ⟨_, hcall, ?_⟩
  have hrows := rangeRegion_rows r fuel
    (rangeRegion
      (if isResc then fun o => img.getRescaledValueAtOffsetZ o
        else fun o => img.getValueAtOffsetZ o)
      ((c : ℤ) * ((r : ℤ) * k))
      ((c : ℤ) * ((r : ℤ) * k) + (r : ℤ) * (c : ℤ))
      1 ((max 1 (c - 1) : ℕ) : ℤ)
      ((c : ℤ) - ((max 1 (c - 1) : ℕ) : ℤ)))
    (max 1 (c - 1)) c rfl rfl rfl rfl (le_max_left 1 (c - 1)) hwc rfl hfuel
  exact hrows

/-- Witness for C7: draining the default iterator on a concrete 3x2x1
single-component image yields the computed row-major reads. -/
theorem c7_witness :
    ∃ it, getRegionSliceIterator imgC7 [0, 0, 0] false none none =
        Except.ok it ∧
      readsTrace RangeRegion.next 10 it =
        (List.range 2).flatMap (fun (j : ℕ) => (List.range (max 1 (3 - 1))).map
          (fun (i : ℕ) => (3 : ℤ) * ((2 : ℤ) * 0) + (j : ℤ) * (3 : ℤ) + (i : ℤ))) :=
  c7_amended imgC7 3 2 1 0 0 0 false 10 (by decide) (by decide) (by decide)
    (by decide)

/-- Counterexample to C7 as stated: on a 3x2 slice the default region
iterator reads offsets `[0, 1, 3, 4]` — offset 2 (and 5), the last column,
is never visited, so the default does not cover the whole slice. -/
theorem c7_counterexample :
    regionReads (getRegionSliceIterator imgC7 [0, 0, 0] false none none) 10 =
        [0, 1, 3, 4] ∧
      (2 : ℤ) ∉
        regionReads (getRegionSliceIterator imgC7 [0, 0, 0] false none none) 10 := by
  constructor
  · decide
  · decide

/-! ### C8 -/

/-- Projection of one histogram step: rescaled minimum. -/
theorem histoStep_rmin (img : Image) (a : HistogramAcc) (i : ℕ) :
    (histoStep img a i).rmin =
      if img.getRescaledValueAtOffset i < a.rmin then
        img.getRescaledValueAtOffset i
      else a.rmin := rfl

/-- Projection of one histogram step: rescaled maximum. -/
theorem histoStep_rmax (img : Image) (a : HistogramAcc) (i : ℕ) :
    (histoStep img a i).rmax =
      if a.rmax < img.getRescaledValueAtOffset i then
        img.getRescaledValueAtOffset i
      else a.rmax := rfl

/-- Projection of one histogram step: bucket counts. -/
theorem histoStep_histo (img : Image) (a : HistogramAcc) (i : ℕ) (q : ℚ) :
    (histoStep img a i).histo q =
      if q = img.getRescaledValueAtOffset i then
        a.histo (img.getRescaledValueAtOffset i) + 1
      else a.histo q := rfl

/-- The histogram scan over offsets of a constant rescaled value: the
rescaled range collapses to that value and its bucket counts the offsets. -/
theorem histo_fold (img : Image) (v : ℚ) :
    ∀ (n : ℕ), (∀ i, i < n → img.getRescaledValueAtOffset i = v) →
    ∀ (a : HistogramAcc), a.rmin = v → a.rmax = v →
      ((List.range n).foldl (histoStep img) a).rmin = v ∧
      ((List.range n).foldl (histoStep img) a).rmax = v ∧
      ∀ q : ℚ, ((List.range n).foldl (histoStep img) a).histo q =
        if q = v then a.histo v + n else a.histo q := by
  intro n
  induction n with
  | zero =>
    intro _ a h1 h2
    refine ⟨h1, h2, ?_⟩
    intro q
    by_cases hq : q = v <;> simp [hq]
  | succ n ih =>
    intro hv a h1 h2
    obtain ⟨ih1, ih2, ih3⟩ := ih (fun i hi => hv i (by omega)) a h1 h2
    have hvn : img.getRescaledValueAtOffset n = v := hv n (by omega)
    rw [List.range_succ, List.foldl_append]
    simp only [List.foldl_cons, List.foldl_nil]
    refine ⟨?_, ?_, ?_⟩
    · rw [histoStep_rmin, hvn, ih1]
      simp
    · rw [histoStep_rmax, hvn, ih2]
      simp
    · intro q
      rw [histoStep_histo, hvn]
      simp only [ih3]
      by_cases hq : q = v
      · subst hq
        simp
        omega
      · simp [hq]

/-- A constant-valued scan yields the single bucket `(v, totalSize)`. -/
theorem calculateHistogram_const (img : Image) (v : ℕ)
    (hn : 1 ≤ img.geometry.size.getTotalSize 0)
    (hv : ∀ i, i < img.geometry.size.getTotalSize 0 →
      img.getRescaledValueAtOffset i = (v : ℚ)) :
    (img.calculateHistogram).2.2 =
      [((v : ℚ), img.geometry.size.getTotalSize 0)] := by
  have h0 : img.getRescaledValueAtOffset 0 = (v : ℚ) := hv 0 (by omega)
  unfold Image.calculateHistogram
  dsimp only
  obtain ⟨h1, h2, h3⟩ := histo_fold img (v : ℚ)
    (img.geometry.size.getTotalSize 0) hv
    ⟨img.getValueAtOffset 0, img.getValueAtOffset 0,
      img.getRescaledValueAtOffset 0, img.getRescaledValueAtOffset 0,
      fun _ => 0⟩ h0 h0
  rw [h1, h2, sub_self]
  rw [show (Rat.floor 0).toNat + 1 = 1 from rfl]
  rw [show List.range 1 = [0] from rfl]
  simp only [List.map_cons, List.map_nil, Nat.cast_zero, add_zero]
  rw [h3]
  simp

/-- C8 (amended): for an image whose first `size.getTotalSize()` offsets all
have the same non-negative integer rescaled value `v`, `calculateHistogram`
returns exactly one bucket pair `(v, N)` with `N = size.getTotalSize()` — the
total voxel count, which equals the number of buffer samples only for
single-component images (the scan covers one sample per voxel, not the whole
buffer of a multi-component image). -/
theorem c8_amended (img : Image) (v : ℕ)
    (hn : 1 ≤ img.geometry.size.getTotalSize 0)
    (hv : ∀ i, i < img.geometry.size.getTotalSize 0 →
      img.getRescaledValueAtOffset i = (v : ℚ)) :
    (img.calculateHistogram).2.2 =
      [((v : ℚ), img.geometry.size.getTotalSize 0)] :=
  calculateHistogram_const img v hn hv

/-- Witness for C8: a concrete two-voxel constant-7 image yields the single
bucket `(7, 2)`. -/
theorem c8_witness :
    (imgC8.calculateHistogram).2.2 =
      [(((7 : ℕ) : ℚ), imgC8.geometry.size.getTotalSize 0)] :=
  c8_amended imgC8 7 (by decide) (by decide)

/-- Counterexample to C8 as stated: this 3-component image has six buffer
samples, all of rescaled value 5, but the histogram's single bucket counts
only 2 — the voxel count, not the buffer sample count. -/
theorem c8_counterexample :
    (imgC8x.calculateHistogram).2.2 = [((5 : ℚ), 2)] ∧
      imgC8x.buffer.length = 6 := by
  constructor
  · have h := calculateHistogram_const imgC8x 5 (by decide) (by decide)
    rw [show imgC8x.geometry.size.getTotalSize 0 = 2 from rfl] at h
    rw [h]
    norm_num
  · rfl

/-! ### C9 -/

/-- A fold of `setRescaleSlopeAndIntercept` calls never touches the buffer
field. -/
theorem foldSetRSI_buffer {β : Type} (g : ℕ → RescaleSlopeAndIntercept) :
    ∀ (l : List ℕ) (c : ImageT β),
      (l.foldl (fun c i => (c.setRescaleSlopeAndIntercept (g i) (some i)).1)
          c).buffer = c.buffer := by
  intro l
  induction l with
  | nil => intro c; rfl
  | cons x xs ih => intro c; rw [List.foldl_cons, ih, setRSI_buffer]

/-- `clone` references the freshly appended heap cell, never the source's. -/
theorem clone_bufferId (h : BufHeap) (img : HImage) :
    ((HImage.clone h img).2).buffer = List.length h := by
  unfold HImage.clone
  dsimp only
  cases hc : img.isConstantRSI
  · rw [if_neg (by decide)]
    rw [foldSetRSI_buffer]
    rfl
  · rw [if_pos rfl]
    rw [setRSI_buffer]
    rfl

/-- `clone` grows the heap by one cell holding a copy of the source buffer. -/
theorem clone_heap (h : BufHeap) (img : HImage) :
    (HImage.clone h img).1 = h ++ [List.getD h img.buffer []] := rfl

/-- A write through the clone's buffer reference is invisible to any read
through the source's reference. -/
theorem write_fresh_getValue (h : BufHeap) (img : HImage)
    (hwf : img.buffer < List.length h) (i : ℕ) (v : ℚ) (o : ℕ) :
    HImage.getValueAtOffset
        (BufHeap.write (HImage.clone h img).1 ((HImage.clone h img).2).buffer
          i v)
        img o
      = HImage.getValueAtOffset h img o := by
  rw [clone_heap, clone_bufferId]
  unfold HImage.getValueAtOffset BufHeap.write
  have hne : List.length h ≠ img.buffer := Nat.ne_of_gt hwf
  have hlist :
      List.getD
          (List.set (h ++ [List.getD h img.buffer []]) (List.length h)
            ((List.getD (h ++ [List.getD h img.buffer []]) (List.length h)
                []).set i v))
          img.buffer []
        = List.getD h img.buffer [] := by
    rw [List.getD_eq_getElem?_getD, List.getElem?_set_ne hne,
      List.getElem?_append_left hwf, ← List.getD_eq_getElem?_getD]
  rw [hlist]

/-- C9: `clone` 's buffer is an independent copy: the clone's buffer
reference differs from the source's, and after writing any value at any
offset through the clone's reference every `getValueAtOffset` of the source
is unchanged, so `calculateDataRange` of the source is unchanged. -/
theorem c9 (h : BufHeap) (img : HImage) (hwf : img.buffer < List.length h)
    (i : ℕ) (v : ℚ) :
    ((HImage.clone h img).2).buffer ≠ img.buffer ∧
    (∀ o : ℕ,
      HImage.getValueAtOffset
          (BufHeap.write (HImage.clone h img).1
            ((HImage.clone h img).2).buffer i v)
          img o
        = HImage.getValueAtOffset h img o) ∧
    HImage.calculateDataRange
        (BufHeap.write (HImage.clone h img).1
          ((HImage.clone h img).2).buffer i v)
        img
      = HImage.calculateDataRange h img := by
  refine ⟨?_, fun o => write_fresh_getValue h img hwf i v o, ?_⟩
  · rw [clone_bufferId]
    omega
  · unfold HImage.calculateDataRange
    simp only [write_fresh_getValue h img hwf i v]

/-- C9 at a concrete heap and image: the hypothesis that the source's buffer
reference is live holds for `heapW` and `himgW`. -/
theorem c9_witness :
    himgW.buffer < List.length heapW ∧
    (((HImage.clone heapW himgW).2).buffer ≠ himgW.buffer ∧
    (∀ o : ℕ,
      HImage.getValueAtOffset
          (BufHeap.write (HImage.clone heapW himgW).1
            ((HImage.clone heapW himgW).2).buffer 1 9)
          himgW o
        = HImage.getValueAtOffset heapW himgW o) ∧
    HImage.calculateDataRange
        (BufHeap.write (HImage.clone heapW himgW).1
          ((HImage.clone heapW himgW).2).buffer 1 9)
        himgW
      = HImage.calculateDataRange heapW himgW) :=
  ⟨by decide, c9 heapW himgW (by decide) 1 9⟩

end dwv
